import Mathlib

/-!
Verification of the Signal Aggregation & Risk-Gated Execution Engine of the
robinhood-tradebot repository, as a shallow embedding in Lean 4.

Python floats are modelled as rationals (`ℚ`), calendar dates and wall-clock
timestamps as natural numbers, and each external collaborator call
(robin_stocks, the SQLite ledger, the data fetcher) as an explicit input of
type `Except Unit _` (`Except.error` = the call raised) or `Option _`
(`none` = a falsy/absent value).  Logging calls are ignored; observable
side effects (brokerage order placement, ledger writes) are modelled as an
explicit event list.
-/

namespace TradeBot

/-- Python `str.lower()` (ASCII), written at the character level so that it
reduces during proofs. -/
def str_toLower (s : String) : String := ⟨s.data.map Char.toLower⟩

/-- Python `str.upper()` (ASCII). -/
def str_toUpper (s : String) : String := ⟨s.data.map Char.toUpper⟩

/-! ## Risk manager (src/src/utils/risk_manager.py) -/

/-- Static configuration of `RiskManager.__init__` (lines 17-22). -/
structure RiskConfig where
  max_position_size : ℚ
  max_daily_loss : ℚ
  max_positions : ℕ
  risk_percentage : ℚ
deriving DecidableEq

/-- Mutable state of `RiskManager`: `self.daily_loss` and
`self.last_reset_date` (lines 24-25).  Dates are day numbers. -/
structure RiskState where
  daily_loss : ℚ
  last_reset_date : ℕ
deriving DecidableEq

/-- Embeds `RiskManager.reset_daily_counters` (lines 27-33): zero the loss counter
when the current date has advanced past `last_reset_date`. -/
def reset_daily_counters (st : RiskState) (today : ℕ) : RiskState :=
  if st.last_reset_date < today then { daily_loss := 0, last_reset_date := today } else st

/-- The portfolio profile dict returned by `rh.profiles.load_portfolio_profile`;
only the `total_return_today` key is read (line 76), with default 0. -/
structure PortfolioProfile where
  total_return_today : Option ℚ
deriving DecidableEq

/-- Results of the two robin_stocks calls made inside `can_trade`:
`rh.account.get_open_stock_positions()` (line 62) and
`rh.profiles.load_portfolio_profile()` (line 74).  `Except.error` models a
raised exception, the inner `Option` models a falsy (`None`) return. -/
structure RiskEnv where
  get_open_stock_positions : Except Unit (Option (List Unit))
  load_portfolio_profile : Except Unit (Option PortfolioProfile)

/-- Embeds `len(positions) if positions else 0` (line 63); `None` and the empty
list are both falsy and both give 0. -/
def positions_len : Option (List Unit) → ℕ
  | none => 0
  | some l => l.length

/-- The positions check of `can_trade` for buy orders (lines 61-70):
`none` models the exception handler (which makes `can_trade` return False),
`some b` the computed comparison `current_positions >= max_positions`. -/
def buy_positions_blocks (cfg : RiskConfig) (env : RiskEnv) : Option Bool :=
  match env.get_open_stock_positions with
  | Except.error _ => none
  | Except.ok ps => some (decide (cfg.max_positions ≤ positions_len ps))

/-- The portfolio-percentage check of `can_trade` (lines 72-83): an
exception or a falsy profile or a non-positive `total_return_today` skips
the check (returns `false` = does not block). -/
def portfolio_risk_blocks (cfg : RiskConfig) (env : RiskEnv) (amount : ℚ) : Bool :=
  match env.load_portfolio_profile with
  | Except.error _ => false
  | Except.ok none => false
  | Except.ok (some p) =>
    let total_value := p.total_return_today.getD 0
    if 0 < total_value then
      decide (total_value * (cfg.risk_percentage / 100) < amount)
    else false

/-- The sequence of checks of `RiskManager.can_trade` (lines 49-85), run
on the already-reset state `st1`: daily-loss ceiling, position-size
ceiling, open-positions ceiling (buy orders only), portfolio-percentage
ceiling. -/
def can_trade_checks (cfg : RiskConfig) (st1 : RiskState) (env : RiskEnv)
    (order_type : String) (amount : ℚ) : Bool :=
  if cfg.max_daily_loss ≤ st1.daily_loss then false
  else if cfg.max_position_size < amount then false
  else if str_toLower order_type = "buy" then
    match buy_positions_blocks cfg env with
    | none => false
    | some true => false
    | some false => !portfolio_risk_blocks cfg env amount
  else !portfolio_risk_blocks cfg env amount

/-- Embeds `RiskManager.can_trade` (lines 35-85): reset the daily counters
(line 47), then run the checks.  Returns the decision together with the
post-call risk state (mutated only by `reset_daily_counters`). -/
def can_trade (cfg : RiskConfig) (st : RiskState) (today : ℕ) (env : RiskEnv)
    (symbol order_type : String) (amount : ℚ) : Bool × RiskState :=
  (can_trade_checks cfg (reset_daily_counters st today) env order_type amount,
   reset_daily_counters st today)

/-- Embeds `RiskManager.update_daily_loss` (lines 127-131): reset-check, then
accumulate. -/
def update_daily_loss (st : RiskState) (today : ℕ) (loss_amount : ℚ) : RiskState :=
  let st1 := reset_daily_counters st today
  { daily_loss := st1.daily_loss + loss_amount, last_reset_date := st1.last_reset_date }

/-! ## Ledger (src/src/utils/database.py) -/

/-- The mutable columns of one row of the `trades` table touched by
`update_trade_status`. -/
structure TradeRow where
  status : String
  executed_at : Option ℕ
  order_id : Option String
deriving DecidableEq

/-- Embeds `TradingDatabase.update_trade_status` (lines 136-157): when the
`executed_at` argument is omitted it is replaced by `datetime.now()`
(modelled by `now`); the SQL `UPDATE` then unconditionally overwrites
`status` and `executed_at` and applies `COALESCE(?, order_id)` to
`order_id`. -/
def update_trade_status (row : TradeRow) (now : ℕ) (status : String)
    (executed_at : Option ℕ) (order_id : Option String) : TradeRow :=
  let ea := executed_at.getD now
  { status := status
    executed_at := some ea
    order_id := match order_id with
      | some o => some o
      | none => row.order_id }

/-! ## Signals and the decision aggregator (src/src/strategies, trading_bot.py) -/

/-- Embeds `OrderType` (base_strategy.py lines 14-18). -/
inductive OrderType where
  | buy
  | sell
  | hold
deriving DecidableEq

/-- Embeds `TradeSignal` (base_strategy.py lines 21-28); `data` is the numeric
evidence dict. -/
structure TradeSignal where
  order_type : OrderType
  confidence : ℚ
  reason : String
  data : List (String × ℚ)
deriving DecidableEq

/-- The running accumulator of the voting loop in
`TradingBot.make_trading_decision` (trading_bot.py lines 109-121). -/
structure VoteAcc where
  buy_votes : ℚ
  sell_votes : ℚ
  total_confidence : ℚ
  reasons : List String

/-- One iteration of the voting loop (trading_bot.py lines 114-121). -/
def vote_step (acc : VoteAcc) (p : String × TradeSignal) : VoteAcc :=
  { buy_votes := if p.2.order_type = OrderType.buy then acc.buy_votes + p.2.confidence
      else acc.buy_votes
    sell_votes := if p.2.order_type = OrderType.sell then acc.sell_votes + p.2.confidence
      else acc.sell_votes
    total_confidence := acc.total_confidence + p.2.confidence
    reasons := acc.reasons ++ [p.1 ++ ": " ++ p.2.reason] }

/-- Embeds `TradingBot.make_trading_decision` (trading_bot.py lines 95-141).
The Python dict of signals is modelled as an association list. -/
def make_trading_decision (signals : List (String × TradeSignal)) : TradeSignal :=
  match signals with
  | [] => { order_type := OrderType.hold, confidence := 0,
            reason := "No signals available", data := [] }
  | _ :: _ =>
    let acc := signals.foldl vote_step
      { buy_votes := 0, sell_votes := 0, total_confidence := 0, reasons := [] }
    if acc.sell_votes < acc.buy_votes ∧ 1/2 < acc.buy_votes then
      { order_type := OrderType.buy, confidence := acc.buy_votes / signals.length,
        reason := "Buy consensus: " ++ String.intercalate "; " acc.reasons, data := [] }
    else if acc.buy_votes < acc.sell_votes ∧ 1/2 < acc.sell_votes then
      { order_type := OrderType.sell, confidence := acc.sell_votes / signals.length,
        reason := "Sell consensus: " ++ String.intercalate "; " acc.reasons, data := [] }
    else
      { order_type := OrderType.hold, confidence := acc.total_confidence / signals.length,
        reason := "Hold consensus: " ++ String.intercalate "; " acc.reasons, data := [] }

/-- Accumulated confidence of the Buy signals (the value `buy_votes` has
after the loop, written as a structural recursion for proofs). -/
def buyScore : List (String × TradeSignal) → ℚ
  | [] => 0
  | p :: rest => (if p.2.order_type = OrderType.buy then p.2.confidence else 0) + buyScore rest

/-- Accumulated confidence of the Sell signals. -/
def sellScore : List (String × TradeSignal) → ℚ
  | [] => 0
  | p :: rest => (if p.2.order_type = OrderType.sell then p.2.confidence else 0) + sellScore rest

/-! ## SMA strategy (src/src/strategies/sma_strategy.py) -/

/-- Embeds the `SMAStrategy.__init__` parameters (lines 21-25). -/
structure SMAConfig where
  short_window : ℕ
  long_window : ℕ
  threshold : ℚ
deriving DecidableEq

/-- The defaults `SMAStrategy(short_window=50, long_window=200, threshold=0.01)`
used by `TradingBot.__init__`. -/
def smaDefault : SMAConfig :=
  { short_window := 50, long_window := 200, threshold := 1/100 }

/-- Embeds `price_series.rolling(window=w).mean().iloc[-1]` (lines 54-55): the mean
of the trailing `w` prices.  (Only evaluated under the guard
`w ≤ prices.length` in `sma_analyze`.) -/
def rollingMeanLast (w : ℕ) (prices : List ℚ) : ℚ :=
  (prices.drop (prices.length - w)).sum / (w : ℚ)

/-- Embeds `pct_diff = (short_ma - long_ma) / long_ma` (lines 54-58): the relative
difference of the trailing window means. -/
def sma_pct_diff (cfg : SMAConfig) (prices : List ℚ) : ℚ :=
  (rollingMeanLast cfg.short_window prices - rollingMeanLast cfg.long_window prices)
    / rollingMeanLast cfg.long_window prices

/-- Embeds `SMAStrategy.analyze` (lines 27-98).  `data = none` models a market-data
dict whose `prices` entry is missing or `None` (`validate_data` fails).
The interpolated numbers of the Python reason strings are elided; the
`evidence` dict is kept. -/
def sma_analyze (cfg : SMAConfig) (symbol : String) (data : Option (List ℚ)) : TradeSignal :=
  match data with
  | none => { order_type := OrderType.hold, confidence := 0,
              reason := "Insufficient data", data := [] }
  | some prices =>
    if prices.length < cfg.long_window then
      { order_type := OrderType.hold, confidence := 0,
        reason := "Insufficient price history", data := [] }
    else if cfg.threshold < sma_pct_diff cfg prices then
      { order_type := OrderType.buy, confidence := min (|sma_pct_diff cfg prices| * 10) 1,
        reason := "Short MA above Long MA",
        data := [("short_ma", rollingMeanLast cfg.short_window prices),
                 ("long_ma", rollingMeanLast cfg.long_window prices),
                 ("pct_diff", sma_pct_diff cfg prices),
                 ("current_price", prices.getLastD 0)] }
    else if sma_pct_diff cfg prices < -cfg.threshold then
      { order_type := OrderType.sell, confidence := min (|sma_pct_diff cfg prices| * 10) 1,
        reason := "Short MA below Long MA",
        data := [("short_ma", rollingMeanLast cfg.short_window prices),
                 ("long_ma", rollingMeanLast cfg.long_window prices),
                 ("pct_diff", sma_pct_diff cfg prices),
                 ("current_price", prices.getLastD 0)] }
    else
      { order_type := OrderType.hold, confidence := 1/2,
        reason := "MAs are close",
        data := [("short_ma", rollingMeanLast cfg.short_window prices),
                 ("long_ma", rollingMeanLast cfg.long_window prices),
                 ("pct_diff", sma_pct_diff cfg prices),
                 ("current_price", prices.getLastD 0)] }

/-! ## Trade execution (src/src/trading_bot.py lines 143-216) -/

/-- The dict returned by `rh.orders.order_buy_fractional_by_price` /
`order_sell_fractional_by_price`; only `result.get('id')` is read. -/
structure OrderResult where
  result_id : Option String
deriving DecidableEq

/-- One entry of `rh.account.get_positions(symbol)`; only
`float(position[0]['quantity'])` is read (line 181). -/
structure PositionRec where
  quantity : ℚ
deriving DecidableEq

/-- Observable external effects of the execution path: a brokerage
order-placement call, a row inserted in the `trades` table
(`TradingDatabase.log_trade`), and a row inserted in the
`portfolio_snapshots` table (`TradingDatabase.log_portfolio_snapshot`). -/
inductive Event where
  | orderPlaced (symbol : String) (order_type : OrderType) (amount : ℚ)
  | tradeLogged (symbol : String) (order_type : OrderType) (quantity price : ℚ)
  | snapshotLogged
deriving DecidableEq

/-- Collaborator behaviour consulted by `TradingBot.execute_trade`:
the auth flag, `get_portfolio_summary().get('buying_power', 0)`, the two
order-placement calls, `rh.account.get_positions(symbol)`,
`data_fetcher.get_current_price(symbol)`, and the ledger insert. -/
structure ExecEnv where
  is_authenticated : Bool
  buying_power : ℚ
  order_buy : Except Unit (Option OrderResult)
  get_positions : Except Unit (List PositionRec)
  order_sell : Except Unit (Option OrderResult)
  current_price : Option ℚ
  log_trade_result : Except Unit ℕ

/-- Python `amount or self.default_trade_amount` (line 163): `None` and
`0.0` are both falsy. -/
def amount_or_default (amount : Option ℚ) (default_trade_amount : ℚ) : ℚ :=
  match amount with
  | none => default_trade_amount
  | some a => if a = 0 then default_trade_amount else a

/-- Lines 191-212 of `execute_trade`: after a placement call returned
`result`, a truthy result leads to a `log_trade` insert and `True`; a
falsy result, or a raise from `log_trade`, gives `False`. -/
def finish_order (env : ExecEnv) (symbol : String) (signal : TradeSignal)
    (trade_amount : ℚ) (result : Option OrderResult) (evs : List Event) : Bool × List Event :=
  match result with
  | none => (false, evs)
  | some _ =>
    let current_price := env.current_price.getD 0
    let quantity := if 0 < current_price then trade_amount / current_price else 0
    match env.log_trade_result with
    | Except.error _ => (false, evs)
    | Except.ok _ =>
      (true, evs ++ [Event.tradeLogged symbol signal.order_type quantity current_price])

/-- The body of the `try` block of `execute_trade` (lines 171-212), with
`trade_amount` already computed: place the order appropriate to the
signal, then hand the result to `finish_order`. -/
def place_and_log (env : ExecEnv) (symbol : String) (signal : TradeSignal)
    (trade_amount : ℚ) : Bool × List Event :=
  if signal.order_type = OrderType.buy then
    match env.order_buy with
    | Except.error _ => (false, [Event.orderPlaced symbol OrderType.buy trade_amount])
    | Except.ok result =>
      finish_order env symbol signal trade_amount result
        [Event.orderPlaced symbol OrderType.buy trade_amount]
  else
    match env.get_positions with
    | Except.error _ => (false, [])
    | Except.ok [] => (false, [])
    | Except.ok (p :: _) =>
      if 0 < p.quantity then
        match env.order_sell with
        | Except.error _ => (false, [Event.orderPlaced symbol OrderType.sell trade_amount])
        | Except.ok result =>
          finish_order env symbol signal trade_amount result
            [Event.orderPlaced symbol OrderType.sell trade_amount]
      else (false, [])

/-- Embeds `TradingBot.execute_trade` (lines 143-216).  Returns the Python result
together with the list of observable external effects. -/
def execute_trade (default_trade_amount : ℚ) (env : ExecEnv) (symbol : String)
    (signal : TradeSignal) (amount : Option ℚ) : Bool × List Event :=
  if env.is_authenticated = false then (false, [])
  else if signal.order_type = OrderType.hold then (true, [])
  else if signal.order_type = OrderType.buy ∧
      env.buying_power < amount_or_default amount default_trade_amount then (false, [])
  else place_and_log env symbol signal (amount_or_default amount default_trade_amount)

/-! ## Manual trade route (src/src/web/dashboard.py lines 89-120) -/

/-- The `/api/trade` POST handler: validate the request, build a manual
`TradeSignal` with confidence 1.0, and call `TradingBot.execute_trade`.
`Except.error` models the 400 responses for invalid parameters. -/
def api_trade (default_trade_amount : ℚ) (env : ExecEnv)
    (symbol order_type : String) (amount : ℚ) : Except Unit (Bool × List Event) :=
  let sym := str_toUpper symbol
  let ot := str_toLower order_type
  if sym = "" ∨ ot = "" ∨ amount ≤ 0 then Except.error ()
  else if ot = "buy" then
    Except.ok (execute_trade default_trade_amount env sym
      { order_type := OrderType.buy, confidence := 1, reason := "Manual trade", data := [] }
      (some amount))
  else if ot = "sell" then
    Except.ok (execute_trade default_trade_amount env sym
      { order_type := OrderType.sell, confidence := 1, reason := "Manual trade", data := [] }
      (some amount))
  else Except.error ()

/-! ## Trading cycle and its scheduled wrapper
(src/src/trading_bot.py lines 218-251, src/main.py lines 64-81) -/

/-- Embeds `TradingBot.analyze_symbol` (trading_bot.py lines 64-93): a falsy
market-data result gives no signals; otherwise every active strategy is
evaluated on the data.  Strategies are passed as evaluation functions on
the `prices` entry of the market-data dict. -/
def analyze_symbol (strategies : List (String × (Option (List ℚ) → TradeSignal)))
    (market_data : Option (List ℚ)) : List (String × TradeSignal) :=
  match market_data with
  | none => []
  | some prices => strategies.map (fun p => (p.1, p.2 (some prices)))

/-- Per-symbol collaborator behaviour for one trading cycle. -/
structure CycleEnv where
  market_data : String → Option (List ℚ)
  exec_env : String → ExecEnv

/-- Embeds `TradingBot.run_trading_cycle` (lines 218-251): per symbol, analyze,
aggregate, and execute when the final confidence reaches `min_confidence`;
collects all observable external effects of the cycle. -/
def run_trading_cycle (min_confidence default_trade_amount : ℚ)
    (strategies : List (String × (Option (List ℚ) → TradeSignal)))
    (env : CycleEnv) (symbols : List String) : List Event :=
  symbols.foldl
    (fun acc symbol =>
      match analyze_symbol strategies (env.market_data symbol) with
      | [] => acc
      | s :: rest =>
        let final_signal := make_trading_decision (s :: rest)
        if min_confidence ≤ final_signal.confidence then
          acc ++ (execute_trade default_trade_amount (env.exec_env symbol) symbol
            final_signal none).2
        else acc)
    []

/-- The attributes assigned on `self` in `TradingBot.__init__`
(trading_bot.py lines 26-40).  There is no attribute named `db_manager`;
the ledger handle is stored as `database`. -/
def tradingBot_attr_names : List String :=
  ["config", "auth", "data_fetcher", "database", "strategies",
   "active_strategies", "default_trade_amount", "is_running"]

/-- Embeds `run_scheduled_trading` (main.py lines 64-81): skip when the bot is not
running; otherwise run a cycle and then attempt
`bot.db_manager.log_portfolio_snapshot(portfolio)` (line 78).  The
attribute access `bot.db_manager` raises `AttributeError` exactly when
`db_manager` is not among the attributes of `TradingBot`; the surrounding
`except` then swallows the raise, so the snapshot insert is skipped. -/
def run_scheduled_trading (is_running : Bool)
    (min_confidence default_trade_amount : ℚ)
    (strategies : List (String × (Option (List ℚ) → TradeSignal)))
    (env : CycleEnv) (symbols : List String) : List Event :=
  if is_running = false then []
  else
    let cycle := run_trading_cycle min_confidence default_trade_amount strategies env symbols
    if tradingBot_attr_names.contains "db_manager" then cycle ++ [Event.snapshotLogged]
    else cycle

/-! ## Concrete scenarios used in the theorems -/

/-- A benign collaborator behaviour for a manual buy: authenticated
session, ample buying power, successful order placement, a live quote of
$100, and a successful ledger insert. -/
def manualBuyEnv : ExecEnv :=
  { is_authenticated := true, buying_power := 5000,
    order_buy := Except.ok (some { result_id := some "order-1" }),
    get_positions := Except.ok [], order_sell := Except.ok none,
    current_price := some 100, log_trade_result := Except.ok 1 }

/-- The default risk limits of `RiskManager.__init__` / `load_config`:
max_position_size 1000, max_daily_loss 500, max_positions 5,
risk_percentage 2. -/
def defaultRiskConfig : RiskConfig :=
  { max_position_size := 1000, max_daily_loss := 500, max_positions := 5,
    risk_percentage := 2 }

/-- Benign collaborators for the risk manager: no open positions, falsy
portfolio profile. -/
def benignRiskEnv : RiskEnv :=
  { get_open_stock_positions := Except.ok (some []),
    load_portfolio_profile := Except.ok none }

/-- A strictly increasing, everywhere-positive price series of exactly the
default long window length (200): price number `i` is `(10000 + i)/100`
dollars, so the series rises from $100.00 to $101.99 in one-cent steps. -/
def slowRisePrices : List ℚ :=
  (List.range 200).map (fun i => ((10000 + i : ℕ) : ℚ) / 100)

end TradeBot


namespace TradeBot

/-! ## Theorems -/

/-- C2: `RiskManager.can_trade` returns `false` whenever the proposed
amount is strictly greater than `max_position_size`, for every symbol,
order type, risk-counter state, calendar date, and collaborator
behaviour. -/
theorem can_trade_rejects_oversize (cfg : RiskConfig) (st : RiskState) (today : ℕ)
    (env : RiskEnv) (symbol order_type : String) (amount : ℚ)
    (h : cfg.max_position_size < amount) :
    (can_trade cfg st today env symbol order_type amount).1 = false := by
  unfold can_trade
  by_cases h1 : cfg.max_daily_loss ≤ (reset_daily_counters st today).daily_loss
  · simp [can_trade_checks, h1]
  · simp [can_trade_checks, h1, h]

/-- Witness for C2 at a concrete oversized amount. -/
theorem can_trade_rejects_oversize_witness :
    (1000 : ℚ) < 2000 ∧
      (can_trade ⟨1000, 500, 5, 2⟩ ⟨0, 0⟩ 0 ⟨Except.ok (some []), Except.ok none⟩
        "AAPL" "buy" 2000).1 = false :=
  ⟨by norm_num, can_trade_rejects_oversize _ _ _ _ _ _ _ (by norm_num)⟩

/-- C9: with an authenticated session, a Hold signal makes
`TradingBot.execute_trade` return `True` while producing no external
effect: no brokerage order is placed and no trade row is written. -/
theorem execute_trade_hold_noop (default_trade_amount : ℚ) (env : ExecEnv)
    (symbol : String) (signal : TradeSignal) (amount : Option ℚ)
    (hauth : env.is_authenticated = true)
    (hhold : signal.order_type = OrderType.hold) :
    execute_trade default_trade_amount env symbol signal amount = (true, []) := by
  unfold execute_trade
  simp [hauth, hhold]

/-- Witness for C9 at a concrete Hold request. -/
theorem execute_trade_hold_noop_witness :
    execute_trade 100
      ⟨true, 0, Except.ok none, Except.ok [], Except.ok none, none, Except.ok 0⟩
      "AAPL" ⟨OrderType.hold, 1/2, "hold it", []⟩ (some 250) = (true, []) :=
  execute_trade_hold_noop _ _ _ _ _ rfl rfl

/-- C10: `can_trade` handles collaborator failures asymmetrically.
Fail-closed: for a buy order, a raise from the open-positions fetch makes
`can_trade` return `false`.  Fail-open: a raise from the portfolio fetch,
a falsy portfolio, or a non-positive portfolio value skips the
portfolio-percentage check, and a trade passing the remaining checks is
approved. -/
theorem can_trade_error_asymmetry :
    (∀ (cfg : RiskConfig) (st : RiskState) (today : ℕ) (env : RiskEnv)
        (symbol order_type : String) (amount : ℚ),
        str_toLower order_type = "buy" →
        env.get_open_stock_positions = Except.error () →
        (can_trade cfg st today env symbol order_type amount).1 = false)
    ∧ (∀ (cfg : RiskConfig) (st : RiskState) (today : ℕ) (env : RiskEnv)
        (symbol order_type : String) (amount : ℚ),
        (reset_daily_counters st today).daily_loss < cfg.max_daily_loss →
        amount ≤ cfg.max_position_size →
        (str_toLower order_type = "buy" →
          ∃ ps, env.get_open_stock_positions = Except.ok ps ∧
            positions_len ps < cfg.max_positions) →
        (env.load_portfolio_profile = Except.error () ∨
         env.load_portfolio_profile = Except.ok none ∨
         ∃ p, env.load_portfolio_profile = Except.ok (some p) ∧
           p.total_return_today.getD 0 ≤ 0) →
        (can_trade cfg st today env symbol order_type amount).1 = true) := by
  constructor
  · intro cfg st today env symbol order_type amount hbuy herr
    have hblocks : buy_positions_blocks cfg env = none := by
      simp [buy_positions_blocks, herr]
    by_cases h1 : cfg.max_daily_loss ≤ (reset_daily_counters st today).daily_loss
    · simp [can_trade, can_trade_checks, h1]
    · by_cases h2 : cfg.max_position_size < amount
      · simp [can_trade, can_trade_checks, h1, h2]
      · simp [can_trade, can_trade_checks, h1, h2, hbuy, hblocks]
  · intro cfg st today env symbol order_type amount h1 h2 hbuy hport
    have hpb : portfolio_risk_blocks cfg env amount = false := by
      rcases hport with h | h | ⟨p, hp, hple⟩
      · simp [portfolio_risk_blocks, h]
      · simp [portfolio_risk_blocks, h]
      · simp only [portfolio_risk_blocks, hp]
        rw [if_neg (not_lt.mpr hple)]
    have hA : ¬ cfg.max_daily_loss ≤ (reset_daily_counters st today).daily_loss :=
      not_le.mpr h1
    have hB : ¬ cfg.max_position_size < amount := not_lt.mpr h2
    by_cases hC : str_toLower order_type = "buy"
    · obtain ⟨ps, hps, hlen⟩ := hbuy hC
      have hsome : buy_positions_blocks cfg env = some false := by
        simp only [buy_positions_blocks, hps, Option.some.injEq,
          decide_eq_false_iff_not, not_le]
        exact hlen
      simp [can_trade, can_trade_checks, hA, hB, hC, hsome, hpb]
    · simp [can_trade, can_trade_checks, hA, hB, hC, hpb]

/-- Witness for C10: both arms at concrete collaborator failures. -/
theorem can_trade_error_asymmetry_witness :
    (can_trade ⟨1000, 500, 5, 2⟩ ⟨0, 0⟩ 0 ⟨Except.error (), Except.ok none⟩
      "AAPL" "buy" 100).1 = false
    ∧ (can_trade ⟨1000, 500, 5, 2⟩ ⟨0, 0⟩ 0 ⟨Except.ok (some []), Except.error ()⟩
      "AAPL" "buy" 100).1 = true :=
  ⟨can_trade_error_asymmetry.1 _ _ _ _ _ _ _ (by decide) rfl,
   can_trade_error_asymmetry.2 _ _ _ _ _ _ _
     (by norm_num [reset_daily_counters]) (by norm_num)
     (fun _ => ⟨some [], rfl, by decide⟩) (Or.inl rfl)⟩

/-- Counterexample to C6 as stated: a second `update_trade_status` call
with the same terminal status but an omitted `executed_at` argument, made
at a later clock time, changes the persisted `executed_at` column. -/
theorem update_trade_status_second_call_changes_state :
    update_trade_status
        (update_trade_status ⟨"pending", none, none⟩ 1 "executed" none none)
        2 "executed" none none
      ≠ update_trade_status ⟨"pending", none, none⟩ 1 "executed" none none := by
  decide

/-- C6 (amended): a second `update_trade_status` call with the same
terminal status always leaves `status` unchanged, and is a no-op on
`status` and `executed_at` exactly when the same `executed_at` value is
passed explicitly; when `executed_at` is omitted, the second call
overwrites it with the second call's clock time. -/
theorem update_trade_status_idempotent_with_explicit_time (row : TradeRow)
    (now1 now2 : ℕ) (status : String) (t : ℕ) (ea : Option ℕ)
    (order_id : Option String) :
    update_trade_status (update_trade_status row now1 status (some t) order_id)
        now2 status (some t) order_id
      = update_trade_status row now1 status (some t) order_id
    ∧ (update_trade_status (update_trade_status row now1 status ea order_id)
        now2 status none order_id).status = status
    ∧ (update_trade_status (update_trade_status row now1 status ea order_id)
        now2 status none order_id).executed_at = some now2 := by
  refine ⟨?_, rfl, rfl⟩
  unfold update_trade_status
  cases order_id <;> rfl

end TradeBot

namespace TradeBot

/-- The `buy_votes` accumulator of the voting loop computes `buyScore`. -/
theorem foldl_vote_step_buy (signals : List (String × TradeSignal)) :
    ∀ acc : VoteAcc,
      (signals.foldl vote_step acc).buy_votes = acc.buy_votes + buyScore signals := by
  induction signals with
  | nil => intro acc; simp [buyScore]
  | cons p rest ih =>
    intro acc
    rw [List.foldl_cons, ih]
    simp only [vote_step, buyScore]
    split_ifs <;> ring

/-- The `sell_votes` accumulator of the voting loop computes `sellScore`. -/
theorem foldl_vote_step_sell (signals : List (String × TradeSignal)) :
    ∀ acc : VoteAcc,
      (signals.foldl vote_step acc).sell_votes = acc.sell_votes + sellScore signals := by
  induction signals with
  | nil => intro acc; simp [sellScore]
  | cons p rest ih =>
    intro acc
    rw [List.foldl_cons, ih]
    simp only [vote_step, sellScore]
    split_ifs <;> ring

/-- Branch structure of `make_trading_decision` on a non-empty signal set,
with the accumulators rewritten to `buyScore`/`sellScore`. -/
theorem make_trading_decision_order_type (signals : List (String × TradeSignal))
    (h : signals ≠ []) :
    (make_trading_decision signals).order_type =
      (if sellScore signals < buyScore signals ∧ 1/2 < buyScore signals then
        OrderType.buy
      else if buyScore signals < sellScore signals ∧ 1/2 < sellScore signals then
        OrderType.sell
      else OrderType.hold) := by
  obtain ⟨p, rest, rfl⟩ := List.exists_cons_of_ne_nil h
  simp only [make_trading_decision, foldl_vote_step_buy, foldl_vote_step_sell, zero_add]
  split_ifs <;> rfl

/-- The confidence reported with a Buy decision is
`buyScore / countOfSignals`. -/
theorem make_trading_decision_buy_confidence (signals : List (String × TradeSignal))
    (h : signals ≠ [])
    (hc : sellScore signals < buyScore signals ∧ 1/2 < buyScore signals) :
    (make_trading_decision signals).confidence = buyScore signals / signals.length := by
  obtain ⟨p, rest, rfl⟩ := List.exists_cons_of_ne_nil h
  simp only [make_trading_decision, foldl_vote_step_buy, foldl_vote_step_sell, zero_add]
  rw [if_pos hc]

/-- C4: on every non-empty signal set the aggregator returns Buy exactly
when `buyScore > sellScore` and `buyScore > 0.5`, its Buy confidence is
`buyScore / countOfSignals`, and in particular two Buy signals with
confidences `c1 ≥ c2 ≥ 0` summing above `0.5` give Buy with confidence
`(c1 + c2) / 2`. -/
theorem aggregator_buy_rule :
    (∀ signals : List (String × TradeSignal), signals ≠ [] →
      ((make_trading_decision signals).order_type = OrderType.buy ↔
        sellScore signals < buyScore signals ∧ 1/2 < buyScore signals))
    ∧ (∀ signals : List (String × TradeSignal), signals ≠ [] →
        sellScore signals < buyScore signals ∧ 1/2 < buyScore signals →
        (make_trading_decision signals).confidence = buyScore signals / signals.length)
    ∧ (∀ c1 c2 : ℚ, c2 ≤ c1 → 0 ≤ c2 → 1/2 < c1 + c2 →
        (make_trading_decision
          [("sma", ⟨OrderType.buy, c1, "r1", []⟩),
           ("rsi", ⟨OrderType.buy, c2, "r2", []⟩)]).order_type = OrderType.buy
        ∧ (make_trading_decision
          [("sma", ⟨OrderType.buy, c1, "r1", []⟩),
           ("rsi", ⟨OrderType.buy, c2, "r2", []⟩)]).confidence = (c1 + c2) / 2) := by
  have horder := make_trading_decision_order_type
  refine ⟨?_, ?_, ?_⟩
  · intro signals h
    rw [horder signals h]
    constructor
    · intro hbuy
      by_contra hcond
      rw [if_neg hcond] at hbuy
      split_ifs at hbuy <;> simp_all
    · intro hcond
      rw [if_pos hcond]
  · intro signals h hc
    exact make_trading_decision_buy_confidence signals h hc
  · intro c1 c2 h12 h2 hsum
    have hbs : buyScore
        [("sma", (⟨OrderType.buy, c1, "r1", []⟩ : TradeSignal)),
         ("rsi", ⟨OrderType.buy, c2, "r2", []⟩)] = c1 + c2 := by
      simp [buyScore]
    have hss : sellScore
        [("sma", (⟨OrderType.buy, c1, "r1", []⟩ : TradeSignal)),
         ("rsi", ⟨OrderType.buy, c2, "r2", []⟩)] = 0 := by
      simp [sellScore]
    have hcond : (0:ℚ) < c1 + c2 ∧ (1:ℚ)/2 < c1 + c2 :=
      ⟨lt_trans (by norm_num) hsum, hsum⟩
    constructor
    · rw [horder _ (by simp), hbs, hss, if_pos ⟨hcond.1, hcond.2⟩]
    · rw [make_trading_decision_buy_confidence _ (by simp)
        (by rw [hbs, hss]; exact ⟨hcond.1, hcond.2⟩), hbs]
      norm_num

/-- Witness for C4 at two concrete Buy signals. -/
theorem aggregator_buy_rule_witness :
    (make_trading_decision
      [("sma", ⟨OrderType.buy, 2/5, "r1", []⟩),
       ("rsi", ⟨OrderType.buy, 1/5, "r2", []⟩)]).order_type = OrderType.buy
    ∧ (make_trading_decision
      [("sma", ⟨OrderType.buy, 2/5, "r1", []⟩),
       ("rsi", ⟨OrderType.buy, 1/5, "r2", []⟩)]).confidence = (2/5 + 1/5) / 2 :=
  aggregator_buy_rule.2.2 (2/5) (1/5) (by norm_num) (by norm_num) (by norm_num)

/-- C5: whenever the accumulated buy and sell scores are equal, the
aggregator returns Hold (never Buy or Sell); this includes the empty
signal set. -/
theorem tie_resolves_to_hold (signals : List (String × TradeSignal))
    (h : buyScore signals = sellScore signals) :
    (make_trading_decision signals).order_type = OrderType.hold := by
  match signals with
  | [] => rfl
  | p :: rest =>
    rw [make_trading_decision_order_type (p :: rest) (by simp), h]
    rw [if_neg (by simp [lt_irrefl]), if_neg (by simp [lt_irrefl])]

/-- Witness for C5 at a concrete tied signal set. -/
theorem tie_resolves_to_hold_witness :
    buyScore [("sma", ⟨OrderType.buy, 3/5, "r1", []⟩),
              ("rsi", ⟨OrderType.sell, 3/5, "r2", []⟩)]
      = sellScore [("sma", ⟨OrderType.buy, 3/5, "r1", []⟩),
                   ("rsi", ⟨OrderType.sell, 3/5, "r2", []⟩)]
    ∧ (make_trading_decision
        [("sma", ⟨OrderType.buy, 3/5, "r1", []⟩),
         ("rsi", ⟨OrderType.sell, 3/5, "r2", []⟩)]).order_type = OrderType.hold :=
  ⟨by simp [buyScore, sellScore], tie_resolves_to_hold _ (by simp [buyScore, sellScore])⟩

end TradeBot

namespace TradeBot

/-- C3: daily reset law.  After `update_daily_loss` books a realized loss
of `max_daily_loss` (starting from a non-negative daily counter on date
`d`), every `can_trade` call on the same calendar day is rejected, for any
amount, order type, and collaborator behaviour.  Once the date advances to
`dNext > d`, the counter is reset to 0 exactly once (the post-state is a
fixed point of `reset_daily_counters` on `dNext`), and a call whose
parameters pass all other checks is approved again. -/
theorem daily_reset_law (cfg : RiskConfig) (st0 : RiskState) (d dNext : ℕ)
    (env2 : RiskEnv) (symbol2 order_type2 : String) (amount2 : ℚ)
    (hdate : st0.last_reset_date = d)
    (hnonneg : 0 ≤ st0.daily_loss)
    (hmax : 0 < cfg.max_daily_loss)
    (hadv : d < dNext)
    (hsize : amount2 ≤ cfg.max_position_size)
    (hbuy : str_toLower order_type2 = "buy" →
      ∃ ps, env2.get_open_stock_positions = Except.ok ps ∧
        positions_len ps < cfg.max_positions)
    (hport : portfolio_risk_blocks cfg env2 amount2 = false) :
    (∀ (env1 : RiskEnv) (symbol1 order_type1 : String) (amount1 : ℚ),
      (can_trade cfg (update_daily_loss st0 d cfg.max_daily_loss) d env1
        symbol1 order_type1 amount1).1 = false)
    ∧ (can_trade cfg (update_daily_loss st0 d cfg.max_daily_loss) dNext env2
        symbol2 order_type2 amount2).1 = true
    ∧ (can_trade cfg (update_daily_loss st0 d cfg.max_daily_loss) dNext env2
        symbol2 order_type2 amount2).2
        = { daily_loss := 0, last_reset_date := dNext }
    ∧ reset_daily_counters
        (can_trade cfg (update_daily_loss st0 d cfg.max_daily_loss) dNext env2
          symbol2 order_type2 amount2).2 dNext
      = (can_trade cfg (update_daily_loss st0 d cfg.max_daily_loss) dNext env2
          symbol2 order_type2 amount2).2 := by
  have hst1 : update_daily_loss st0 d cfg.max_daily_loss
      = { daily_loss := st0.daily_loss + cfg.max_daily_loss, last_reset_date := d } := by
    simp [update_daily_loss, reset_daily_counters, hdate]
  have hreset_same : reset_daily_counters
      (update_daily_loss st0 d cfg.max_daily_loss) d
      = { daily_loss := st0.daily_loss + cfg.max_daily_loss, last_reset_date := d } := by
    rw [hst1]
    unfold reset_daily_counters
    simp
  have hreset_next : reset_daily_counters
      (update_daily_loss st0 d cfg.max_daily_loss) dNext
      = { daily_loss := 0, last_reset_date := dNext } := by
    rw [hst1]
    unfold reset_daily_counters
    simp [hadv]
  have hexceeded : cfg.max_daily_loss ≤ st0.daily_loss + cfg.max_daily_loss := by linarith
  have hstate : ∀ (envx : RiskEnv) (sx ox : String) (ax : ℚ),
      (can_trade cfg (update_daily_loss st0 d cfg.max_daily_loss) dNext envx sx ox ax).2
        = { daily_loss := 0, last_reset_date := dNext } := by
    intro envx sx ox ax
    show reset_daily_counters (update_daily_loss st0 d cfg.max_daily_loss) dNext = _
    exact hreset_next
  refine ⟨?_, ?_, hstate env2 symbol2 order_type2 amount2, ?_⟩
  · intro env1 symbol1 order_type1 amount1
    show (can_trade_checks cfg
      (reset_daily_counters (update_daily_loss st0 d cfg.max_daily_loss) d) env1
      order_type1 amount1, _).1 = false
    rw [hreset_same]
    simp [can_trade_checks, hexceeded]
  · have hA : ¬ cfg.max_daily_loss ≤
        (reset_daily_counters (update_daily_loss st0 d cfg.max_daily_loss) dNext).daily_loss := by
      rw [hreset_next]
      simp [hmax]
    have hB : ¬ cfg.max_position_size < amount2 := not_lt.mpr hsize
    by_cases hC : str_toLower order_type2 = "buy"
    · obtain ⟨ps, hps, hlen⟩ := hbuy hC
      have hsome : buy_positions_blocks cfg env2 = some false := by
        simp only [buy_positions_blocks, hps, Option.some.injEq,
          decide_eq_false_iff_not, not_le]
        exact hlen
      simp [can_trade, can_trade_checks, hA, hB, hC, hsome, hport]
    · simp [can_trade, can_trade_checks, hA, hB, hC, hport]
  · rw [hstate env2 symbol2 order_type2 amount2]
    unfold reset_daily_counters
    simp

/-- Witness for C3 at concrete dates, limits, and collaborators. -/
theorem daily_reset_law_witness :
    (can_trade ⟨1000, 500, 5, 2⟩ (update_daily_loss ⟨0, 0⟩ 0 500) 0
      ⟨Except.ok (some []), Except.ok none⟩ "AAPL" "sell" 100).1 = false
    ∧ (can_trade ⟨1000, 500, 5, 2⟩ (update_daily_loss ⟨0, 0⟩ 0 500) 1
      ⟨Except.ok (some []), Except.ok none⟩ "AAPL" "sell" 100).1 = true :=
  have h := daily_reset_law ⟨1000, 500, 5, 2⟩ ⟨0, 0⟩ 0 1
    ⟨Except.ok (some []), Except.ok none⟩ "AAPL" "sell" 100
    rfl le_rfl (by norm_num) (by norm_num) (by norm_num)
    (fun _ => ⟨some [], rfl, by decide⟩) (by simp [portfolio_risk_blocks])
  ⟨h.1 _ "AAPL" "sell" 100, h.2.1⟩

end TradeBot

namespace TradeBot

/-- C1 (refuted by the code): a manual buy submitted through the
`/api/trade` route for $2000 — twice the `max_position_size` of $1000,
which `RiskManager.can_trade` rejects — is nevertheless executed: the
route path places the brokerage order and logs the trade without any
`can_trade` call occurring anywhere on that path (the manual path
contains no use of `RiskManager`). -/
theorem manual_trade_skips_risk_gate :
    api_trade 100 manualBuyEnv "AAPL" "buy" 2000 =
      Except.ok (true, [Event.orderPlaced "AAPL" OrderType.buy 2000,
                        Event.tradeLogged "AAPL" OrderType.buy 20 100])
    ∧ (can_trade defaultRiskConfig ⟨0, 0⟩ 0 benignRiskEnv "AAPL" "buy" 2000).1 = false := by
  constructor
  · have hup : str_toUpper "AAPL" = "AAPL" := by decide
    have hlo : str_toLower "buy" = "buy" := by decide
    have hcond : ¬ (("AAPL" : String) = "" ∨ ("buy" : String) = "" ∨ (2000 : ℚ) ≤ 0) := by
      push_neg
      exact ⟨by decide, by decide, by norm_num⟩
    have hamt : amount_or_default (some 2000) 100 = 2000 := by
      norm_num [amount_or_default]
    rw [api_trade, hup, hlo, if_neg hcond, if_pos rfl, execute_trade, hamt]
    rw [if_neg (by simp [manualBuyEnv])]
    rw [if_neg (by simp)]
    rw [if_neg (by simp [manualBuyEnv]; norm_num)]
    rw [place_and_log, if_pos rfl]
    show Except.ok (finish_order manualBuyEnv "AAPL" _ 2000 (some _) _) = _
    rw [finish_order]
    simp only [manualBuyEnv, Option.getD_some]
    rw [if_pos (by norm_num)]
    norm_num
  · simp [can_trade, can_trade_checks, reset_daily_counters, defaultRiskConfig]
    norm_num

/-- Trade execution never appends a portfolio snapshot: its only external
effects are order placements and trade-row inserts. -/
theorem execute_trade_no_snapshot (default_trade_amount : ℚ) (env : ExecEnv)
    (symbol : String) (signal : TradeSignal) (amount : Option ℚ) :
    ((execute_trade default_trade_amount env symbol signal amount).2).countP
      (fun e => e = Event.snapshotLogged) = 0 := by
  have hfin : ∀ (ta : ℚ) (result : Option OrderResult) (evs : List Event),
      evs.countP (fun e => e = Event.snapshotLogged) = 0 →
      ((finish_order env symbol signal ta result evs).2).countP
        (fun e => e = Event.snapshotLogged) = 0 := by
    intro ta result evs hevs
    unfold finish_order
    cases result with
    | none => exact hevs
    | some r =>
      cases env.log_trade_result with
      | error e => exact hevs
      | ok n => simp [List.countP_append, List.countP_cons, hevs]
  have hplace : ∀ ta : ℚ,
      ((place_and_log env symbol signal ta).2).countP
        (fun e => e = Event.snapshotLogged) = 0 := by
    intro ta
    unfold place_and_log
    split_ifs with hbuy
    · cases env.order_buy with
      | error e => simp [List.countP_cons]
      | ok result => exact hfin _ result _ (by simp [List.countP_cons])
    · cases env.get_positions with
      | error e => rfl
      | ok pos =>
        cases pos with
        | nil => rfl
        | cons p rest =>
          dsimp only
          split_ifs with hq
          · cases env.order_sell with
            | error e => simp [List.countP_cons]
            | ok result => exact hfin _ result _ (by simp [List.countP_cons])
          · rfl
  unfold execute_trade
  split_ifs <;> first
    | rfl
    | exact hplace (amount_or_default amount default_trade_amount)

/-- A trading cycle appends no portfolio snapshot whatever the symbols,
strategies, thresholds, and collaborator behaviour. -/
theorem run_trading_cycle_no_snapshot (min_confidence default_trade_amount : ℚ)
    (strategies : List (String × (Option (List ℚ) → TradeSignal)))
    (env : CycleEnv) (symbols : List String) :
    (run_trading_cycle min_confidence default_trade_amount strategies env symbols).countP
      (fun e => e = Event.snapshotLogged) = 0 := by
  unfold run_trading_cycle
  suffices h : ∀ acc : List Event,
      acc.countP (fun e => e = Event.snapshotLogged) = 0 →
      (symbols.foldl
        (fun acc symbol =>
          match analyze_symbol strategies (env.market_data symbol) with
          | [] => acc
          | s :: rest =>
            let final_signal := make_trading_decision (s :: rest)
            if min_confidence ≤ final_signal.confidence then
              acc ++ (execute_trade default_trade_amount (env.exec_env symbol) symbol
                final_signal none).2
            else acc) acc).countP (fun e => e = Event.snapshotLogged) = 0 by
    exact h [] rfl
  induction symbols with
  | nil => intro acc hacc; exact hacc
  | cons s rest ih =>
    intro acc hacc
    rw [List.foldl_cons]
    apply ih
    cases hsig : analyze_symbol strategies (env.market_data s) with
    | nil => exact hacc
    | cons q qs =>
      dsimp only
      split_ifs with hconf
      · rw [List.countP_append, hacc, execute_trade_no_snapshot]
      · exact hacc

/-- C8 (refuted by the code): no invocation of the trading cycle or of its
scheduled wrapper ever appends a `PortfolioSnapshot`.  `run_trading_cycle`
contains no snapshot call, and the wrapper's
`bot.db_manager.log_portfolio_snapshot(portfolio)` raises `AttributeError`
(the attribute is named `database`), which its `except` swallows — so the
per-cycle snapshot count is 0, not 1. -/
theorem scheduled_cycle_appends_no_snapshot (is_running : Bool)
    (min_confidence default_trade_amount : ℚ)
    (strategies : List (String × (Option (List ℚ) → TradeSignal)))
    (env : CycleEnv) (symbols : List String) :
    (run_scheduled_trading is_running min_confidence default_trade_amount
      strategies env symbols).countP (fun e => e = Event.snapshotLogged) = 0 := by
  unfold run_scheduled_trading
  split_ifs with h1 h2
  · rfl
  · exact absurd h2 (by decide)
  · exact run_trading_cycle_no_snapshot _ _ _ _ _

end TradeBot

namespace TradeBot

/-- Termwise lower bound on a list sum. -/
theorem length_mul_le_sum (l : List ℚ) (a : ℚ) (h : ∀ x ∈ l, a ≤ x) :
    (l.length : ℚ) * a ≤ l.sum := by
  induction l with
  | nil => simp
  | cons x t ih =>
    have hx : a ≤ x := h x (List.mem_cons_self x t)
    have ht := ih (fun y hy => h y (List.mem_cons_of_mem x hy))
    simp only [List.length_cons, List.sum_cons]
    push_cast
    nlinarith

/-- Strict termwise upper bound on a non-empty list sum. -/
theorem sum_lt_length_mul (l : List ℚ) (a : ℚ) (hne : l ≠ []) (h : ∀ x ∈ l, x < a) :
    l.sum < (l.length : ℚ) * a := by
  induction l with
  | nil => exact absurd rfl hne
  | cons x t ih =>
    have hx : x < a := h x (List.mem_cons_self x t)
    by_cases ht : t = []
    · subst ht; simpa using hx
    · have hts := ih ht (fun y hy => h y (List.mem_cons_of_mem x hy))
      simp only [List.length_cons, List.sum_cons]
      push_cast
      nlinarith

/-- On a strictly increasing list, the mean of a proper trailing suffix is
strictly larger than the mean of the whole list. -/
theorem suffix_mean_gt (m : List ℚ) (s : ℕ) (hpw : List.Pairwise (· < ·) m)
    (hs : 0 < s) (hsm : s < m.length) :
    m.sum / (m.length : ℚ) < (m.drop (m.length - s)).sum / (s : ℚ) := by
  set k := m.length - s with hk
  have hkpos : 0 < k := by omega
  have hpre_len : (m.take k).length = k := by
    rw [List.length_take]; omega
  have hsuf_len : (m.drop k).length = s := by
    rw [List.length_drop]; omega
  have hsplit : m.take k ++ m.drop k = m := List.take_append_drop k m
  have hpw2 : List.Pairwise (· < ·) (m.take k ++ m.drop k) := by
    rw [hsplit]; exact hpw
  obtain ⟨hpw_pre, hpw_suf, hcross⟩ := List.pairwise_append.mp hpw2
  have hsufne : m.drop k ≠ [] := by
    intro hnil; rw [hnil] at hsuf_len; simp at hsuf_len; omega
  have hprene : m.take k ≠ [] := by
    intro hnil; rw [hnil] at hpre_len; simp at hpre_len; omega
  obtain ⟨a, rest, hcons⟩ := List.exists_cons_of_ne_nil hsufne
  have hamem : a ∈ m.drop k := by
    rw [hcons]; exact List.mem_cons_self a rest
  have hsuf_ge : ∀ y ∈ m.drop k, a ≤ y := by
    intro y hy
    rw [hcons] at hy hpw_suf
    rcases List.mem_cons.mp hy with h | h
    · exact le_of_eq h.symm
    · exact le_of_lt ((List.pairwise_cons.mp hpw_suf).1 y h)
  have hpre_lt : ∀ x ∈ m.take k, x < a := fun x hx => hcross x hx a hamem
  have h1 : (s : ℚ) * a ≤ (m.drop k).sum := by
    have hb := length_mul_le_sum (m.drop k) a hsuf_ge
    rwa [hsuf_len] at hb
  have h2 : (m.take k).sum < (k : ℚ) * a := by
    have hb := sum_lt_length_mul (m.take k) a hprene hpre_lt
    rwa [hpre_len] at hb
  have hmsum : m.sum = (m.take k).sum + (m.drop k).sum := by
    conv_lhs => rw [← hsplit]
    rw [List.sum_append]
  have hlen_cast : (m.length : ℚ) = (k : ℚ) + (s : ℚ) := by
    have hks : m.length = k + s := by omega
    rw [hks]; push_cast; ring
  have hmlen_pos : (0 : ℚ) < (m.length : ℚ) := by
    have h0 : 0 < m.length := by omega
    exact_mod_cast h0
  have hs_pos : (0 : ℚ) < (s : ℚ) := by exact_mod_cast hs
  have hk_pos : (0 : ℚ) < (k : ℚ) := by exact_mod_cast hkpos
  rw [div_lt_div_iff₀ hmlen_pos hs_pos, hmsum, hlen_cast]
  nlinarith [mul_le_mul_of_nonneg_left h1 (le_of_lt hk_pos),
    mul_lt_mul_of_pos_right h2 hs_pos]

/-- On a strictly increasing price list, a shorter trailing mean strictly
exceeds a longer one. -/
theorem rollingMeanLast_lt_of_pairwise (prices : List ℚ) (s L : ℕ)
    (hpw : List.Pairwise (· < ·) prices) (hs : 0 < s) (hsL : s < L)
    (hL : L ≤ prices.length) :
    rollingMeanLast L prices < rollingMeanLast s prices := by
  have hmlen : (prices.drop (prices.length - L)).length = L := by
    rw [List.length_drop]; omega
  have hmpw : List.Pairwise (· < ·) (prices.drop (prices.length - L)) :=
    List.Pairwise.sublist (List.drop_sublist _ _) hpw
  have key := suffix_mean_gt (prices.drop (prices.length - L)) s hmpw hs (by omega)
  rw [hmlen] at key
  have hdd : (prices.drop (prices.length - L)).drop (L - s)
      = prices.drop (prices.length - s) := by
    rw [List.drop_drop]
    congr 1
    omega
  rw [hdd] at key
  unfold rollingMeanLast
  exact key

/-- The trailing mean of an everywhere-positive price list is positive. -/
theorem rollingMeanLast_pos (prices : List ℚ) (w : ℕ) (hw : 0 < w)
    (hwlen : w ≤ prices.length) (hpos : ∀ x ∈ prices, 0 < x) :
    0 < rollingMeanLast w prices := by
  have hlen : (prices.drop (prices.length - w)).length = w := by
    rw [List.length_drop]; omega
  have hne : prices.drop (prices.length - w) ≠ [] := by
    intro h; rw [h] at hlen; simp at hlen; omega
  have hsum : 0 < (prices.drop (prices.length - w)).sum :=
    List.sum_pos _ (fun x hx => hpos x (List.mem_of_mem_drop hx)) hne
  exact div_pos hsum (by exact_mod_cast hw)

/-- Negating every element negates the list sum. -/
theorem sum_map_neg_q (l : List ℚ) : (l.map (fun x => -x)).sum = -l.sum := by
  induction l with
  | nil => simp
  | cons a t ih => simp [ih]; ring

/-- Negating every price negates the trailing means. -/
theorem rollingMeanLast_map_neg (w : ℕ) (prices : List ℚ) :
    rollingMeanLast w (prices.map (fun x => -x)) = -rollingMeanLast w prices := by
  unfold rollingMeanLast
  rw [List.length_map, ← List.map_drop, sum_map_neg_q]
  ring

/-- Negation turns a strictly decreasing list into a strictly increasing
one. -/
theorem pairwise_gt_map_neg (prices : List ℚ)
    (h : List.Pairwise (fun a b => b < a) prices) :
    List.Pairwise (· < ·) (prices.map (fun x => -x)) := by
  rw [List.pairwise_map]
  exact h.imp (fun hab => neg_lt_neg hab)

/-- On a strictly decreasing price list, a shorter trailing mean is
strictly below a longer one. -/
theorem rollingMeanLast_gt_of_pairwise_gt (prices : List ℚ) (s L : ℕ)
    (hpw : List.Pairwise (fun a b => b < a) prices) (hs : 0 < s) (hsL : s < L)
    (hL : L ≤ prices.length) :
    rollingMeanLast s prices < rollingMeanLast L prices := by
  have hmap := rollingMeanLast_lt_of_pairwise (prices.map (fun x => -x)) s L
    (pairwise_gt_map_neg prices hpw) hs hsL (by rw [List.length_map]; exact hL)
  rw [rollingMeanLast_map_neg, rollingMeanLast_map_neg] at hmap
  linarith

/-- Branch behaviour of `sma_analyze` on a sufficiently long series. -/
theorem sma_analyze_order_type (cfg : SMAConfig) (symbol : String) (prices : List ℚ)
    (hlen : cfg.long_window ≤ prices.length) :
    (sma_analyze cfg symbol (some prices)).order_type =
      (if cfg.threshold < sma_pct_diff cfg prices then OrderType.buy
       else if sma_pct_diff cfg prices < -cfg.threshold then OrderType.sell
       else OrderType.hold) := by
  simp only [sma_analyze]
  rw [if_neg (not_lt.mpr hlen)]
  split_ifs <;> rfl

end TradeBot

namespace TradeBot

theorem slowRisePrices_length : slowRisePrices.length = 200 := by
  simp [slowRisePrices]

theorem slowRisePrices_pairwise : List.Pairwise (· < ·) slowRisePrices := by
  unfold slowRisePrices
  rw [List.pairwise_map]
  refine (List.pairwise_lt_range 200).imp ?_
  intro a b hab
  have hc : ((10000 + a : ℕ) : ℚ) < ((10000 + b : ℕ) : ℚ) := by
    exact_mod_cast (by omega : 10000 + a < 10000 + b)
  gcongr

theorem slowRisePrices_pos : ∀ x ∈ slowRisePrices, 0 < x := by
  intro x hx
  unfold slowRisePrices at hx
  obtain ⟨i, _, rfl⟩ := List.mem_map.mp hx
  have h1 : (0 : ℚ) < ((10000 + i : ℕ) : ℚ) := by
    exact_mod_cast (by omega : 0 < 10000 + i)
  positivity

/-- Pull the common scale factor out of the slow-rise list sum. -/
theorem sum_map_shift_div (l : List ℕ) :
    (l.map (fun i => ((10000 + i : ℕ) : ℚ) / 100)).sum
      = (((l.map (fun i => 10000 + i)).sum : ℕ) : ℚ) / 100 := by
  induction l with
  | nil => simp
  | cons a t ih =>
    simp only [List.map_cons, List.sum_cons, ih]
    push_cast
    ring

set_option maxRecDepth 4000 in
theorem slowRise_nat_sum_short :
    (((List.range 200).drop 150).map (fun i => 10000 + i)).sum = 508725 := by
  decide

set_option maxRecDepth 4000 in
theorem slowRise_nat_sum_long :
    ((List.range 200).map (fun i => 10000 + i)).sum = 2019900 := by
  decide

theorem slowRisePrices_mean_short :
    rollingMeanLast 50 slowRisePrices = 20349/200 := by
  unfold rollingMeanLast
  rw [slowRisePrices_length]
  show (slowRisePrices.drop 150).sum / (50 : ℚ) = 20349/200
  unfold slowRisePrices
  rw [← List.map_drop, sum_map_shift_div, slowRise_nat_sum_short]
  norm_num

theorem slowRisePrices_mean_long :
    rollingMeanLast 200 slowRisePrices = 20199/200 := by
  unfold rollingMeanLast
  rw [slowRisePrices_length]
  show slowRisePrices.sum / (200 : ℚ) = 20199/200
  unfold slowRisePrices
  rw [sum_map_shift_div, slowRise_nat_sum_long]
  norm_num

theorem slowRisePrices_pct : sma_pct_diff smaDefault slowRisePrices = 50/6733 := by
  unfold sma_pct_diff
  show (rollingMeanLast 50 slowRisePrices - rollingMeanLast 200 slowRisePrices)
      / rollingMeanLast 200 slowRisePrices = 50/6733
  rw [slowRisePrices_mean_short, slowRisePrices_mean_long]
  norm_num

/-- Counterexample to C7 as stated: `slowRisePrices` is a strictly
increasing, everywhere-positive price series of exactly the long-window
length, yet the default SMA strategy returns Hold, not Buy (its relative
MA difference 50/6733 ≈ 0.74% is below the 1% threshold). -/
theorem sma_slow_rise_returns_hold :
    List.Pairwise (· < ·) slowRisePrices
    ∧ smaDefault.long_window ≤ slowRisePrices.length
    ∧ (sma_analyze smaDefault "AAPL" (some slowRisePrices)).order_type = OrderType.hold := by
  refine ⟨slowRisePrices_pairwise, by rw [slowRisePrices_length]; decide, ?_⟩
  rw [sma_analyze_order_type smaDefault "AAPL" slowRisePrices
    (by rw [slowRisePrices_length]; decide)]
  rw [slowRisePrices_pct]
  rw [if_neg (by norm_num [smaDefault]), if_neg (by norm_num [smaDefault])]

/-- C7 (amended): on a positive, strictly monotone price series at least
as long as the long window, the shorter trailing mean lies strictly on the
side of the longer one given by the direction of the trend, so an
increasing series never yields Sell — it yields Buy exactly when the
relative MA difference exceeds the threshold, else Hold — and a
decreasing series never yields Buy — it yields Sell exactly when the
relative difference is below the negated threshold, else Hold. -/
theorem sma_monotone_series_signal (cfg : SMAConfig) (symbol : String) (prices : List ℚ)
    (hs : 0 < cfg.short_window) (hsl : cfg.short_window < cfg.long_window)
    (hlen : cfg.long_window ≤ prices.length) (hthr : 0 < cfg.threshold)
    (hpos : ∀ x ∈ prices, 0 < x) :
    (List.Pairwise (· < ·) prices →
      ((sma_analyze cfg symbol (some prices)).order_type ≠ OrderType.sell ∧
        ((sma_analyze cfg symbol (some prices)).order_type = OrderType.buy ↔
          cfg.threshold < sma_pct_diff cfg prices)))
    ∧ (List.Pairwise (fun a b => b < a) prices →
      ((sma_analyze cfg symbol (some prices)).order_type ≠ OrderType.buy ∧
        ((sma_analyze cfg symbol (some prices)).order_type = OrderType.sell ↔
          sma_pct_diff cfg prices < -cfg.threshold))) := by
  have hOT := sma_analyze_order_type cfg symbol prices hlen
  have hLpos : 0 < rollingMeanLast cfg.long_window prices :=
    rollingMeanLast_pos prices cfg.long_window (by omega) hlen hpos
  constructor
  · intro hinc
    have hlt := rollingMeanLast_lt_of_pairwise prices cfg.short_window cfg.long_window
      hinc hs hsl hlen
    have hpct : 0 < sma_pct_diff cfg prices := by
      unfold sma_pct_diff
      exact div_pos (by linarith) hLpos
    constructor
    · rw [hOT]
      split_ifs with h1 h2
      · simp
      · exact absurd h2 (not_lt.mpr (by linarith))
      · simp
    · rw [hOT]
      constructor
      · intro hbuy
        by_contra hnot
        rw [if_neg hnot] at hbuy
        split_ifs at hbuy <;> simp_all
      · intro h; rw [if_pos h]
  · intro hdec
    have hgt := rollingMeanLast_gt_of_pairwise_gt prices cfg.short_window cfg.long_window
      hdec hs hsl hlen
    have hpct : sma_pct_diff cfg prices < 0 := by
      unfold sma_pct_diff
      exact div_neg_of_neg_of_pos (by linarith) hLpos
    have hnb : ¬ cfg.threshold < sma_pct_diff cfg prices := not_lt.mpr (by linarith)
    constructor
    · rw [hOT, if_neg hnb]
      split_ifs with h2
      · simp
      · simp
    · rw [hOT, if_neg hnb]
      constructor
      · intro hsell
        by_contra hnot
        rw [if_neg hnot] at hsell
        exact absurd hsell (by simp)
      · intro h; rw [if_pos h]

/-- Witness for the amended C7 at the concrete rising series. -/
theorem sma_monotone_series_signal_witness :
    (sma_analyze smaDefault "AAPL" (some slowRisePrices)).order_type ≠ OrderType.sell
    ∧ ((sma_analyze smaDefault "AAPL" (some slowRisePrices)).order_type = OrderType.buy ↔
        smaDefault.threshold < sma_pct_diff smaDefault slowRisePrices) :=
  (sma_monotone_series_signal smaDefault "AAPL" slowRisePrices
    (by decide) (by decide) (by rw [slowRisePrices_length]; decide)
    (by norm_num [smaDefault]) slowRisePrices_pos).1 slowRisePrices_pairwise

end TradeBot
